import Mathlib

/-!
Verification of the restic-115 adapter (a restic REST v2 backend on top of
the 115 Open Platform).  Shallow embedding of the storage-translation
engine: the range parser of the REST surface, the metadata-cache queries,
the authenticated request pipeline, the token refresh loop, the OSS
signed-PUT canonicalisation, and the upload reconciliation step.

Every definition is translated from the Rust source (src/restic/handler.rs,
src/open115/client.rs, src/open115/auth.rs, src/open115/types.rs) unless its
doc comment says otherwise.  Strings that the Rust code slices or splits are
modelled as lists of characters so that every operation is structurally
recursive and kernel-computable.
-/

namespace Restic115

/-- `MAX_RATE_LIMIT_RETRIES` from client.rs and auth.rs. -/
def MAX_RATE_LIMIT_RETRIES : Nat := 6

/-! ## Character-list string utilities

Models of the Rust `str` operations used by the source, over `List Char`. -/

/-- Model of Rust `u64::from_str`: an optional leading plus sign, then one or
more ASCII digits, and the value must fit in 64 bits. -/
def parseU64 (cs : List Char) : Option Nat :=
  let ds := match cs with
    | '+' :: rest => rest
    | _ => cs
  if ds = [] then none
  else if ds.all (fun c => c.isDigit) then
    let n := ds.foldl (fun acc c => acc * 10 + (c.toNat - 48)) 0
    if n < 2 ^ 64 then some n else none
  else none

/-- Model of Rust `split(sep)`: empty fields are kept, like the source. -/
def splitOnChar (sep : Char) : List Char → List (List Char)
  | [] => [[]]
  | c :: rest =>
    if c = sep then [] :: splitOnChar sep rest
    else
      match splitOnChar sep rest with
      | [] => [[c]]
      | h :: t => (c :: h) :: t

/-- Model of stripping the literal `bytes=` from the front of the header
value (the source strips that exact ASCII string). -/
def stripBytesEq : List Char → Option (List Char)
  | 'b' :: 'y' :: 't' :: 'e' :: 's' :: '=' :: rest => some rest
  | _ => none

/-- Model of Rust `trim_end_matches(sep)` for a single character. -/
def trimEndChar (sep : Char) (cs : List Char) : List Char :=
  ((cs.reverse).dropWhile (fun c => c = sep)).reverse

/-- Model of Rust `trim_start_matches(sep)` for a single character. -/
def trimStartChar (sep : Char) (cs : List Char) : List Char :=
  cs.dropWhile (fun c => c = sep)

/-! ## Range parsing (src/restic/handler.rs, `parse_range`) -/

inductive RangeParseError where
  | invalid
  | unsatisfiable
  deriving DecidableEq, Repr

/-- The two dash-separated fields of a range header that carries the
`bytes=` marker and splits into exactly two fields.  The source returns
`Invalid` both when the marker is missing and when the number of fields is
not two; those two checks are fused here. -/
def range_parts (headerVal : List Char) : Option (List Char × List Char) :=
  match stripBytesEq headerVal with
  | none => none
  | some spec =>
    match splitOnChar '-' spec with
    | [p0, p1] => some (p0, p1)
    | _ => none

/-- Translation of `parse_range(header_val, file_size)` from
src/restic/handler.rs lines 251-286.  Only a single range is supported.
For the suffix form `bytes=-N` the source computes
`start = file_size.saturating_sub(N)`, and because the second field is
non-empty it then parses that same field again as the end position
(`end = N`).  The pair is accepted when `start <= end && start < file_size`,
with the end clamped to `file_size - 1`. -/
def parse_range (headerVal : List Char) (fileSize : Nat) :
    Except RangeParseError (Nat × Nat) :=
  match range_parts headerVal with
  | none => .error .invalid
  | some (p0, p1) =>
    if fileSize = 0 then .error .unsatisfiable
    else
      let startOpt : Option Nat :=
        if p0 = [] then (parseU64 p1).map (fun suffixLen => fileSize - suffixLen)
        else parseU64 p0
      match startOpt with
      | none => .error .invalid
      | some start =>
        let endOpt : Option Nat :=
          if p1 = [] then some (fileSize - 1) else parseU64 p1
        match endOpt with
        | none => .error .invalid
        | some e =>
          if start ≤ e ∧ start < fileSize then .ok (start, min e (fileSize - 1))
          else .error .unsatisfiable

/-- The start position the parser derives from a range header: the first
field when present, otherwise `file_size` minus the suffix length
(saturating), exactly as in the source. -/
def range_start_of (headerVal : List Char) (fileSize : Nat) : Option Nat :=
  match range_parts headerVal with
  | none => none
  | some (p0, p1) =>
    if p0 = [] then (parseU64 p1).map (fun suffixLen => fileSize - suffixLen)
    else parseU64 p0

/-- A range header is syntactically well formed when it has the `bytes=`
marker, exactly two dash-separated fields, the start field parses (or is
the empty suffix field with a parsing length), and the end field is empty
or parses as a number. -/
def RangeWellFormed (headerVal : List Char) (fileSize : Nat) : Prop :=
  ∃ p0 p1, range_parts headerVal = some (p0, p1) ∧
    (range_start_of headerVal fileSize).isSome ∧
    (p1 = [] ∨ (parseU64 p1).isSome)

/-- Response model for the range branch of `get_file`
(src/restic/handler.rs lines 319-375): status, `Content-Range` header,
`Content-Length` header, and body bytes. -/
structure RangeHttpResponse where
  status : Nat
  contentRange : Option String
  contentLength : Nat
  body : List Nat
  deriving DecidableEq, Repr

/-- Result of the range branch of `get_file`: either the `BadRequest`
error for an invalid header, or a response together with a flag recording
whether a download of file content was performed. -/
inductive GetFileRangeResult where
  | badRequest (msg : String)
  | response (r : RangeHttpResponse) (downloaded : Bool)
  deriving DecidableEq, Repr

/-- Translation of the `Range`-header branch of `get_file`
(src/restic/handler.rs lines 321-360).  `content` is the stored file body;
a successful parse downloads the inclusive byte range `start..=end` and
answers 206 with a matching `Content-Range`; an unsatisfiable range answers
416 with `Content-Range: bytes */size`, `Content-Length: 0` and an empty
body without downloading anything. -/
def get_file_range_branch (content : List Nat) (headerVal : List Char) :
    GetFileRangeResult :=
  let fileSize := content.length
  match parse_range headerVal fileSize with
  | .error .invalid => .badRequest ("Invalid Range header")
  | .error .unsatisfiable =>
    .response
      { status := 416
        contentRange := some ("bytes */" ++ toString fileSize)
        contentLength := 0
        body := [] }
      false
  | .ok (start, e) =>
    let data := (content.drop start).take (e + 1 - start)
    .response
      { status := 206
        contentRange :=
          some ("bytes " ++ toString start ++ "-" ++ toString e ++ "/" ++
            toString fileSize)
        contentLength := data.length
        body := data }
      true

/-! ## Metadata cache (the `file_nodes` table) and its queries

src/open115/client.rs queries the `file_nodes` table through sea_orm.  A
cache state is modelled as the list of rows of that table. -/

/-- A row of the `file_nodes` table.

Modelled from the spec: the entity definition of `file_nodes` is not under
src (the database.rs revision present defines an older `cached_files`
table); §4.7 of the spec gives the schema
`file_nodes(file_id PK, parent_id, name, is_dir, size, pick_code)`, which
matches every column that client.rs reads and writes. -/
structure FileNode where
  file_id : String
  parent_id : String
  name : String
  is_dir : Bool
  size : Int
  pick_code : String
  deriving DecidableEq, Repr

/-- The in-memory file description used by client.rs (`struct FileInfo`). -/
structure FileInfo where
  file_id : String
  filename : String
  is_dir : Bool
  size : Int
  pick_code : String
  deriving DecidableEq, Repr

/-- Structural lexicographic comparison of character lists, the order Rust
uses to compare `String` keys (byte order and character order agree on
UTF-8).  It matches the constructors of the core `List.lt` order. -/
def ltChars : List Char → List Char → Bool
  | _, [] => false
  | [], _ :: _ => true
  | a :: as, b :: bs =>
    if a < b then true
    else if b < a then false
    else ltChars as bs

/-- Model of `Iterator::max_by_key` on the `file_id` column: the fold keeps
the later element on ties, exactly like the Rust iterator adapter. -/
def max_by_file_id_aux (acc : Option FileNode) : List FileNode → Option FileNode
  | [] => acc
  | x :: xs =>
    match acc with
    | none => max_by_file_id_aux (some x) xs
    | some a =>
      max_by_file_id_aux
        (some (if ltChars x.file_id.data a.file_id.data then a else x)) xs

def max_by_file_id (l : List FileNode) : Option FileNode :=
  max_by_file_id_aux none l

/-- Translation of `find_file(cid, name)` (src/open115/client.rs lines
494-513): a pure query over the cache that filters rows by
`parent_id = cid` and `name = name` and picks the row with the largest
`file_id`.  No remote call is made. -/
def find_file (db : List FileNode) (cid name : String) : Option FileNode :=
  max_by_file_id
    (db.filter (fun r => r.parent_id = cid ∧ r.name = name))

/-- The filtered query inside the path-resolution loop of `find_path_id`
(src/open115/client.rs lines 598-606): rows with the given parent, the
given name, and `is_dir = true`, reduced with `max_by_key(file_id)`. -/
def find_dir_child (db : List FileNode) (parentId name : String) :
    Option FileNode :=
  max_by_file_id
    (db.filter (fun r => r.parent_id = parentId ∧ r.name = name ∧ r.is_dir))

/-- The `for part in parts` loop of `find_path_id`: walk the components from
the current id, stepping only through directory rows; any missing component
aborts with `none`. -/
def resolve_components (db : List FileNode) : String → List String → Option String
  | currentId, [] => some currentId
  | currentId, part :: rest =>
    match find_dir_child db currentId part with
    | some node => resolve_components db node.file_id rest
    | none => none

/-- The component list of a path: strip leading slashes, split on the
slash, and drop empty components, as in the source. -/
def path_components (cs : List Char) : List String :=
  ((splitOnChar '/' (trimStartChar '/' cs)).filter (fun p => ¬ p = [])).map
    (fun p => String.mk p)

/-- Translation of `find_path_id(path)` (src/open115/client.rs lines
583-616): trailing slashes are trimmed; an empty result (or a bare slash)
resolves to the root id "0" without consulting the cache; otherwise the
components are resolved from "0" through directory rows only. -/
def find_path_id (db : List FileNode) (path : List Char) : Option String :=
  let trimmed := trimEndChar '/' path
  if trimmed = [] ∨ trimmed = ['/'] then some ("0")
  else resolve_components db ("0") (path_components trimmed)

/-! ## Upload reconciliation (C2) -/

/-- Outcome of one remote `/open/ufile/delete` call, as seen by
`delete_file`: either the transport layer failed, or the provider answered
(any application-level state/code, which `delete_file` treats as an
idempotent success). -/
inductive RemoteDeleteResult where
  | transportErr
  | response (state : Bool) (code : Int)
  deriving DecidableEq, Repr

/-- Errors surfaced by the modelled database/upload operations. -/
inductive UploadErr where
  | internal (msg : String)
  | httpClient
  | dbInsertConflict
  deriving DecidableEq, Repr

/-- A plain sea_orm `insert` of a `file_nodes` row.

Modelled from the spec: §4.7 makes `file_id` the primary key of
`file_nodes` (the entity definition itself is not under src), so a plain
`INSERT` — the call in `handle_upload_success`, which unlike
`save_files_to_db` carries no `on_conflict` clause — fails with a unique
constraint violation when a row with the same `file_id` already exists. -/
def insert_file_node (db : List FileNode) (row : FileNode) :
    Except UploadErr (List FileNode) :=
  if db.any (fun r => r.file_id = row.file_id) then .error .dbInsertConflict
  else .ok (db ++ [row])

/-- Translation of `delete_file(parent_id, file_id)` (src/open115/client.rs
lines 716-745): the remote delete is issued first; a transport failure
propagates (`?`) before the cache is touched; an application-level failure
is logged and treated as idempotent success; on reaching the cache step the
row with this `file_id` is removed. -/
def delete_file (db : List FileNode) (remote : RemoteDeleteResult)
    (fileId : String) : Except UploadErr (List FileNode) :=
  match remote with
  | .transportErr => .error .httpClient
  | .response _ _ => .ok (db.filter (fun r => ¬ r.file_id = fileId))

/-- Translation of `handle_upload_success(parent_id, info)`
(src/open115/client.rs lines 1121-1164).  `remote` gives the outcome of
the remote delete call for each duplicate `file_id`.  First every cached
row with the same `(parent_id, name)` but a different `file_id` is deleted
(failures of `delete_file` are logged and skipped), then the new row is
written with a plain insert. -/
def handle_upload_success (db : List FileNode)
    (remote : String → RemoteDeleteResult) (parentId : String)
    (info : FileInfo) : Except UploadErr (List FileNode) :=
  let toDelete := db.filter (fun r =>
    r.parent_id = parentId ∧ r.name = info.filename ∧ ¬ r.file_id = info.file_id)
  let db2 := toDelete.foldl (fun d dup =>
    match delete_file d (remote dup.file_id) dup.file_id with
    | .ok d2 => d2
    | .error _ => d) db
  insert_file_node db2
    { file_id := info.file_id
      parent_id := parentId
      name := info.filename
      is_dir := info.is_dir
      size := info.size
      pick_code := info.pick_code }

/-! ## Data shard directories (C9) -/

/-- Model of the shard helper of client.rs lines 671-673
(`&filename[..2.min(filename.len())]`): the first `min(2, len)` characters
of the blob name.  The source slices the first two bytes; restic blob
names are ASCII hex, where bytes and characters coincide. -/
def data_subdir_first2 (filename : List Char) : List Char :=
  filename.take (min 2 filename.length)

/-- Translation of `get_data_file_dir_id` (client.rs lines 675-679): the
remote path handed to `ensure_path` for the write side:
the repo path, then `/data/`, then the shard. -/
def get_data_file_dir_path (repoPath : String) (filename : List Char) :
    String :=
  repoPath ++ "/data/" ++ String.mk (data_subdir_first2 filename)

/-- Translation of `find_data_file_dir_id` (client.rs lines 681-685): the
remote path handed to `find_path_id` for the read/delete side. -/
def find_data_file_dir_path (repoPath : String) (filename : List Char) :
    String :=
  repoPath ++ "/data/" ++ String.mk (data_subdir_first2 filename)

/-! ## OSS signed PUT canonicalisation (C6)

Translation of the signing part of `oss_put_object`
(src/open115/client.rs lines 1009-1042).  The base64 encoder and the
HMAC-SHA1 primitive are library calls in the source; they are passed in as
uninterpreted functions, and everything the source builds around them is
modelled concretely. -/

/-- Model of Rust `str::trim` (drop whitespace from both ends). -/
def trimChars (cs : List Char) : List Char :=
  (((cs.dropWhile Char.isWhitespace).reverse).dropWhile Char.isWhitespace).reverse

/-- Model of Rust `str::to_lowercase` restricted to ASCII (the header
names it is applied to are ASCII literals). -/
def asciiLowerChar (c : Char) : Char :=
  if 'A' ≤ c ∧ c ≤ 'Z' then Char.ofNat (c.toNat + 32) else c

def lowerChars (cs : List Char) : List Char :=
  cs.map asciiLowerChar

/-- Insertion step of a stable sort of header pairs by name, the model of
`sort_by(|a, b| a.0.cmp(&b.0))`. -/
def insertHeaderSorted (p : List Char × String) :
    List (List Char × String) → List (List Char × String)
  | [] => [p]
  | q :: qs =>
    if ltChars q.1 p.1 then q :: insertHeaderSorted p qs
    else p :: q :: qs

def sortHeadersByName (l : List (List Char × String)) :
    List (List Char × String) :=
  l.foldr insertHeaderSorted []

/-- The three `x-oss-*` headers assembled by `oss_put_object` before
sorting: `x-oss-callback` carries base64(callback), `x-oss-callback-var`
carries base64(callback_var), `x-oss-security-token` carries the raw
token. -/
def oss_header_pairs (cbB64 cbVarB64 securityToken : String) :
    List (List Char × String) :=
  [("x-oss-callback".data, cbB64),
   ("x-oss-callback-var".data, cbVarB64),
   ("x-oss-security-token".data, securityToken)]

def oss_content_type : String := "application/octet-stream"

/-- `canonicalized_headers`: the sorted pairs rendered as
`lowercase-name:trimmed-value\n` and concatenated. -/
def oss_canonicalized_headers (cbB64 cbVarB64 securityToken : String) :
    String :=
  String.join
    ((sortHeadersByName (oss_header_pairs cbB64 cbVarB64 securityToken)).map
      (fun kv =>
        String.mk (lowerChars kv.1) ++ ":" ++
          String.mk (trimChars kv.2.data) ++ "\n"))

/-- `canonicalized_resource`: `/{bucket}/{object}` with the object stripped
of leading slashes. -/
def oss_canonicalized_resource (bucket object : String) : String :=
  "/" ++ bucket ++ "/" ++ String.mk (trimStartChar '/' object.data)

/-- `string_to_sign`: `PUT\n\n{content_type}\n{date}\n{headers}{resource}`.
The second line is empty because no Content-MD5 is sent. -/
def oss_string_to_sign (bucket object cbB64 cbVarB64 securityToken date :
    String) : String :=
  "PUT\n\n" ++ oss_content_type ++ "\n" ++ date ++ "\n" ++
    oss_canonicalized_headers cbB64 cbVarB64 securityToken ++
    oss_canonicalized_resource bucket object

/-- The signed-request part of `oss_put_object`: the string that is
HMAC-SHA1-signed and the `Authorization` header value.  `b64` is the
standard base64 encoder and `hmacB64` is
`base64(HMAC-SHA1(secret, message))`, both library primitives. -/
structure OssSignedRequest where
  string_to_sign : String
  authorization : String
  deriving Repr

def oss_put_signature (b64 : String → String)
    (hmacB64 : String → String → String)
    (akId akSecret bucket object callback callbackVar securityToken date :
      String) : OssSignedRequest :=
  let cbB64 := b64 callback
  let cbVarB64 := b64 callbackVar
  let s2s :=
    oss_string_to_sign bucket object cbB64 cbVarB64 securityToken date
  { string_to_sign := s2s
    authorization := "OSS " ++ akId ++ ":" ++ hmacB64 akSecret s2s }

/-! ## JSON values and the provider envelope (src/open115/types.rs)

Provider responses are JSON; numbers that the source reads are `i64`, so
numeric leaves are modelled as `Int`. -/

inductive JsonValue where
  | null
  | bool (b : Bool)
  | num (n : Int)
  | str (s : String)
  | arr (xs : List JsonValue)
  | obj (fields : List (String × JsonValue))

/-- Model of `serde_json::Value::get(key)` on an object. -/
def jGet (v : JsonValue) (key : String) : Option JsonValue :=
  match v with
  | .obj fields => (fields.find? (fun kv => kv.1 = key)).map (fun kv => kv.2)
  | _ => none

def jAsI64 : JsonValue → Option Int
  | .num n => some n
  | _ => none

def jAsBool : JsonValue → Option Bool
  | .bool b => some b
  | _ => none

def jAsStr : JsonValue → Option String
  | .str s => some s
  | _ => none

def isObj : JsonValue → Bool
  | .obj _ => true
  | _ => false

/-- Model of `str::eq_ignore_ascii_case`. -/
def eqIgnoreAsciiCase (a b : String) : Bool :=
  lowerChars a.data = lowerChars b.data

/-- Translation of `is_api_error` (src/open115/client.rs lines 47-71): a
non-zero `code`, or a `state` that is boolean false, integer zero, or the
strings "0" or "false" (case-insensitively). -/
def is_api_error (v : JsonValue) : Bool :=
  let codeErr : Bool :=
    match (jGet v "code").bind jAsI64 with
    | some code => ¬ code = 0
    | none => false
  if codeErr then true
  else
    match jGet v "state" with
    | some state =>
      let b1 : Bool := match jAsBool state with
        | some b => ! b
        | none => false
      let b2 : Bool := match jAsI64 state with
        | some n => n = 0
        | none => false
      let b3 : Bool := match jAsStr state with
        | some s => s = "0" || eqIgnoreAsciiCase s ("false")
        | none => false
      b1 || b2 || b3
    | none => false

/-- `is_access_token_invalid` (client.rs lines 29-33). -/
def is_access_token_invalid (code : Int) : Bool :=
  40140123 ≤ code ∧ code ≤ 40140126

/-- `is_quota_limited` (client.rs lines 35-38). -/
def is_quota_limited (code : Int) : Bool :=
  code = 406

/-- `is_rate_limited` (client.rs lines 40-45). -/
def is_rate_limited (code : Int) : Bool :=
  is_quota_limited code || code = 40140117

/-! ## OSS callback result parsing (C4)

Translation of `deserialize_state` and the `OssCallbackResult` /
`OssCallbackData` serde structures of src/open115/types.rs; serde failures
are `none`. -/

/-- Translation of `deserialize_state` (types.rs lines 6-22): never fails;
unknown shapes become `none` (state unknown). -/
def deserialize_state (v : Option JsonValue) : Option Bool :=
  match v with
  | none => none
  | some .null => none
  | some (.bool b) => some b
  | some (.num n) => some (decide (¬ n = 0))
  | some (.str s) =>
    if s = "0" ∨ s = "false" ∨ s = "False" ∨ s = "FALSE" then some false
    else if s = "1" ∨ s = "true" ∨ s = "True" ∨ s = "TRUE" then some true
    else none
  | some _ => none

/-- serde `Option<i64>` field: missing or null is `None`; any other
non-integer shape fails the whole parse. -/
def parse_opt_i64 : Option JsonValue → Option (Option Int)
  | none => some none
  | some .null => some none
  | some (.num n) => some (some n)
  | some _ => none

/-- serde `Option<String>` field. -/
def parse_opt_string : Option JsonValue → Option (Option String)
  | none => some none
  | some .null => some none
  | some (.str s) => some (some s)
  | some _ => none

/-- serde `#[serde(default)] String` field: missing becomes the empty
string; a present non-string (including null) fails. -/
def parse_def_string : Option JsonValue → Option String
  | none => some ("")
  | some (.str s) => some s
  | some _ => none

/-- serde `#[serde(default)] i64` field. -/
def parse_def_i64 : Option JsonValue → Option Int
  | none => some 0
  | some (.num n) => some n
  | some _ => none

/-- `OssCallbackData` (types.rs lines 164-178). -/
structure OssCallbackData where
  pick_code : String
  file_name : String
  file_size : Int
  file_id : String
  sha1 : String
  cid : String
  deriving DecidableEq, Repr

/-- `OssCallbackResult` (types.rs lines 155-162). -/
structure OssCallbackResult where
  state : Option Bool
  code : Option Int
  message : Option String
  data : Option OssCallbackData
  deriving DecidableEq, Repr

def parseOssCallbackData (v : JsonValue) : Option OssCallbackData :=
  if isObj v then do
    let pc ← parse_def_string (jGet v "pick_code")
    let fname ← parse_def_string (jGet v "file_name")
    let fsize ← parse_def_i64 (jGet v "file_size")
    let fid ← parse_def_string (jGet v "file_id")
    let sh ← parse_def_string (jGet v "sha1")
    let cd ← parse_def_string (jGet v "cid")
    some { pick_code := pc, file_name := fname, file_size := fsize,
           file_id := fid, sha1 := sh, cid := cd }
  else none

def parseOssCallbackResult (v : JsonValue) : Option OssCallbackResult :=
  if isObj v then do
    let code ← parse_opt_i64 (jGet v "code")
    let message ← parse_opt_string (jGet v "message")
    let data ←
      match jGet v "data" with
      | none => some none
      | some .null => some none
      | some dv => (parseOssCallbackData dv).map some
    some { state := deserialize_state (jGet v "state"), code := code,
           message := message, data := data }
  else none

/-- The PUT response body as the source sees it: empty, bytes that do not
parse as an `OssCallbackResult`, or parsed JSON. -/
inductive OssPutBody where
  | empty
  | unparseable
  | json (v : JsonValue)

/-- Translation of the success-body handling of `oss_put_object`
(client.rs lines 1103-1118): an empty body, a body that does not parse,
a missing or falsy state, a non-zero code, missing data, or an empty
`file_id` or `pick_code` all yield `None`; otherwise the callback data is
returned. -/
def oss_put_success_result (body : OssPutBody) : Option OssCallbackData :=
  match body with
  | .empty => none
  | .unparseable => none
  | .json v =>
    match parseOssCallbackResult v with
    | none => none
    | some cb =>
      let ok := cb.state.getD false
      let code := cb.code.getD 0
      if ok ∧ code = 0 then
        match cb.data with
        | some d =>
          if ¬ d.file_id = "" ∧ ¬ d.pick_code = "" then some d else none
        | none => none
      else none

/-- Response handling of `oss_put_object`: a non-2xx HTTP status fails
with the body text; a 2xx status returns the optional callback data. -/
def oss_put_response (status : Nat) (body : OssPutBody) :
    Except UploadErr (Option OssCallbackData) :=
  if 200 ≤ status ∧ status ≤ 299 then .ok (oss_put_success_result body)
  else .error (.internal ("OSS put failed: status=" ++ toString status))

/-- The exact `Internal` message required when the PUT succeeded but no
valid callback metadata came back (client.rs lines 1351-1356). -/
def oss_upload_err_msg : String :=
  "OSS upload completed but server failed to return file metadata via callback"

/-- Translation of the tail of `upload_file` (client.rs lines 1322-1357):
after the OSS PUT, callback metadata is reconciled into the cache via
`handle_upload_success` (the file name falls back to the requested one when
the callback's is empty); absent metadata fails with the fixed `Internal`
message. -/
def upload_file_after_put (db : List FileNode)
    (remote : String → RemoteDeleteResult) (parentId filename : String)
    (putResult : Except UploadErr (Option OssCallbackData)) :
    Except UploadErr (List FileNode) :=
  match putResult with
  | .error e => .error e
  | .ok (some cb) =>
    let info : FileInfo :=
      { file_id := cb.file_id
        filename := if cb.file_name = "" then filename else cb.file_name
        is_dir := false
        size := cb.file_size
        pick_code := cb.pick_code }
    handle_upload_success db remote parentId info
  | .ok none => .error (.internal oss_upload_err_msg)

/-- The callback-acceptance condition exactly as the claim words it: the
body parses as an `OssCallbackResult` with state true, code 0 (or absent),
and callback data with non-empty `file_id` and `pick_code`. -/
def GoodCallback (body : OssPutBody) : Prop :=
  ∃ v cb d, body = .json v ∧ parseOssCallbackResult v = some cb ∧
    cb.state = some true ∧ cb.code.getD 0 = 0 ∧ cb.data = some d ∧
    ¬ d.file_id = "" ∧ ¬ d.pick_code = ""

/-! ## Authenticated request pipeline (C3)

Translation of `request_with_retry` (src/open115/client.rs lines 417-487).
Both entry points (`get_json` and `post_form_json`) delegate to this loop;
a request attempt is the pair (HTTP status, body).  The loop `for attempt
in 1..=MAX_RATE_LIMIT_RETRIES` is modelled with a fuel argument that
starts at `MAX_RATE_LIMIT_RETRIES`; the `unreachable!()` after the loop is
the fuel-zero case. -/

/-- One outbound HTTP exchange: either the transport failed, or a status
and a body arrived (`none` = bytes that are not valid JSON). -/
inductive AttemptResult where
  | err
  | resp (status : Nat) (body : Option JsonValue)

/-- Observable actions of the pipeline, in order: the n-th HTTP request
issued, a forced token refresh, a backoff sleep after the given loop
attempt. -/
inductive PipeEvent where
  | request (n : Nat)
  | refresh
  | backoff (attempt : Nat)
  deriving DecidableEq, Repr

/-- Result of the pipeline: the parsed body, a decode error (`serde`
failure surfaced through `?`), a propagated transport error, a propagated
refresh failure, or the unreachable loop exit. -/
inductive PipeOutcome where
  | ok (v : JsonValue)
  | decodeError
  | transportError
  | refreshFailed
  | exhausted

/-- `serde_json::from_slice::<T>` on a response body (`T` is the JSON
value itself at this layer). -/
def parse_bytes : Option JsonValue → PipeOutcome
  | some v => .ok v
  | none => .decodeError

def request_with_retry_go (requests : Nat → AttemptResult)
    (refreshOk : Bool) :
    Nat → Nat → Nat → List PipeEvent → PipeOutcome × List PipeEvent
  | 0, _, _, log => (.exhausted, log)
  | fuel + 1, attempt, reqIdx, log =>
    match requests reqIdx with
    | .err => (.transportError, log ++ [.request reqIdx])
    | .resp status body =>
      let log2 := log ++ [.request reqIdx]
      if status = 401 then
        if refreshOk then
          match requests (reqIdx + 1) with
          | .err =>
            (.transportError, log2 ++ [.refresh, .request (reqIdx + 1)])
          | .resp _ body2 =>
            (parse_bytes body2, log2 ++ [.refresh, .request (reqIdx + 1)])
        else (.refreshFailed, log2 ++ [.refresh])
      else if status = 429 ∧ attempt < MAX_RATE_LIMIT_RETRIES then
        request_with_retry_go requests refreshOk fuel (attempt + 1)
          (reqIdx + 1) (log2 ++ [.backoff attempt])
      else
        match body with
        | some v =>
          if is_api_error v then
            match (jGet v "code").bind jAsI64 with
            | some code =>
              if is_access_token_invalid code then
                if refreshOk then
                  match requests (reqIdx + 1) with
                  | .err =>
                    (.transportError,
                      log2 ++ [.refresh, .request (reqIdx + 1)])
                  | .resp _ body2 =>
                    (parse_bytes body2,
                      log2 ++ [.refresh, .request (reqIdx + 1)])
                else (.refreshFailed, log2 ++ [.refresh])
              else if is_rate_limited code ∧
                  attempt < MAX_RATE_LIMIT_RETRIES then
                request_with_retry_go requests refreshOk fuel (attempt + 1)
                  (reqIdx + 1) (log2 ++ [.backoff attempt])
              else (.ok v, log2)
            | none => (.ok v, log2)
          else (.ok v, log2)
        | none => (.decodeError, log2)

/-- The pipeline entry: attempt counter and request counter start at 1
with an empty event log.  `refreshOk` records whether a forced token
refresh succeeds. -/
def request_with_retry (requests : Nat → AttemptResult)
    (refreshOk : Bool) : PipeOutcome × List PipeEvent :=
  request_with_retry_go requests refreshOk MAX_RATE_LIMIT_RETRIES 1 1 []

/-! ## Token refresh loop (C5)

Translation of `TokenManager::refresh_token` (src/open115/auth.rs lines
199-297) and `backoff_sleep` (auth.rs lines 22-28). -/

/-- `is_refresh_rate_limited` (auth.rs lines 17-20). -/
def is_refresh_rate_limited (code : Int) : Bool :=
  code = 40140117

/-- `backoff_sleep`: `(1u64 << (attempt - 1)).min(16)` seconds (the shift
cannot overflow because the attempt counter is at most 6). -/
def backoff_secs (attempt : Nat) : Nat :=
  min (1 <<< (attempt - 1)) 16

/-- One refresh attempt as the loop observes it: a transport error, a JSON
parse error, or a parsed `RefreshTokenResponse` envelope. -/
inductive RefreshAttempt where
  | transportErr
  | parseErr
  | body (state : Option Bool) (code : Option Int) (message : Option String)

/-- How the loop resolves: a successful envelope, a propagated transport
or parse error on the last attempt, a terminal application error
(`AppError::Auth` carrying the code and message), or the unreachable
fall-through. -/
inductive RefreshResult where
  | success (state : Option Bool) (code : Option Int)
      (message : Option String)
  | transportError
  | parseError
  | authError (code : Int) (message : String)
  | exhausted
  deriving DecidableEq, Repr

/-- The `for attempt in 1..=MAX_RATE_LIMIT_RETRIES` loop of
`refresh_token`, with fuel; the second component collects the lengths (in
seconds) of the backoff sleeps in order. -/
def refresh_token_loop (attempts : Nat → RefreshAttempt) :
    Nat → Nat → List Nat → RefreshResult × List Nat
  | 0, _, sleeps => (.exhausted, sleeps)
  | fuel + 1, attempt, sleeps =>
    match attempts attempt with
    | .transportErr =>
      if attempt < MAX_RATE_LIMIT_RETRIES then
        refresh_token_loop attempts fuel (attempt + 1)
          (sleeps ++ [backoff_secs attempt])
      else (.transportError, sleeps)
    | .parseErr =>
      if attempt < MAX_RATE_LIMIT_RETRIES then
        refresh_token_loop attempts fuel (attempt + 1)
          (sleeps ++ [backoff_secs attempt])
      else (.parseError, sleeps)
    | .body st code msg =>
      if st.getD false ∧ code.getD (-1) = 0 then
        (.success st code msg, sleeps)
      else if is_refresh_rate_limited (code.getD (-1)) ∧
          attempt < MAX_RATE_LIMIT_RETRIES then
        refresh_token_loop attempts fuel (attempt + 1)
          (sleeps ++ [backoff_secs attempt])
      else (.authError (code.getD (-1)) (msg.getD ("")), sleeps)

/-- The refresh retry loop started at attempt 1 with no sleeps taken. -/
def refresh_token (attempts : Nat → RefreshAttempt) :
    RefreshResult × List Nat :=
  refresh_token_loop attempts MAX_RATE_LIMIT_RETRIES 1 []

/-- The backoff schedule after the first `k` failed attempts. -/
def backoff_schedule (k : Nat) : List Nat :=
  (List.range k).map (fun i => backoff_secs (i + 1))

/-! ## Concrete cache fixtures used by witnesses -/

/-- A small cache with two same-named siblings (ids "a1" and "b2") and one
other child, for witnesses. -/
def exampleCache : List FileNode :=
  [{ file_id := "a1", parent_id := "p", name := "n", is_dir := false,
     size := 5, pick_code := "q1" },
   { file_id := "b2", parent_id := "p", name := "n", is_dir := false,
     size := 7, pick_code := "q2" },
   { file_id := "c3", parent_id := "p", name := "other", is_dir := false,
     size := 9, pick_code := "q3" }]

/-- The expected winner row of `exampleCache` for name "n". -/
def exampleRow : FileNode :=
  { file_id := "b2", parent_id := "p", name := "n", is_dir := false,
    size := 7, pick_code := "q2" }

/-! ## The structural comparator agrees with the lexicographic order -/

theorem ltChars_iff_lex (as : List Char) : ∀ bs,
    ltChars as bs = true ↔ List.Lex (· < ·) as bs := by
  induction as with
  | nil =>
    intro bs
    cases bs with
    | nil =>
      simp only [ltChars]
      exact iff_of_false (by simp) (by intro h; cases h)
    | cons b bs =>
      simp only [ltChars]
      exact iff_of_true (by simp) List.Lex.nil
  | cons a as ih =>
    intro bs
    cases bs with
    | nil =>
      simp only [ltChars]
      exact iff_of_false (by simp) (by intro h; cases h)
    | cons b bs =>
      simp only [ltChars]
      by_cases hab : a < b
      · simp only [hab, if_true]
        exact iff_of_true (by simp) (List.Lex.rel hab)
      · by_cases hba : b < a
        · simp only [hab, hba, if_true, if_false]
          refine iff_of_false (by simp) ?_
          intro h
          cases h with
          | cons h2 => exact absurd hba (lt_irrefl _)
          | rel h2 => exact absurd h2 hab
        · have heq : a = b := le_antisymm (le_of_not_lt hba) (le_of_not_lt hab)
          subst heq
          simp only [hab, if_false, if_neg hba]
          rw [ih bs]
          constructor
          · exact fun h => List.Lex.cons h
          · intro h
            cases h with
            | cons h2 => exact h2
            | rel h2 => exact absurd h2 hab

/-- The Rust string order (bytewise, i.e. lexicographic) coincides with the
`<` of Mathlib's `String` linear order. -/
theorem string_lt_iff_ltChars (a b : String) :
    a < b ↔ ltChars a.data b.data = true := by
  rw [String.lt_iff_toList_lt]
  rw [show (a.toList < b.toList) = List.Lex (· < ·) a.data b.data from rfl]
  exact (ltChars_iff_lex a.data b.data).symm

/-! ## Lemmas about `max_by_file_id` -/

theorem max_by_file_id_aux_some (l : List FileNode) (a : FileNode) :
    ∃ b, max_by_file_id_aux (some a) l = some b := by
  induction l generalizing a with
  | nil => exact ⟨a, rfl⟩
  | cons x xs ih =>
    simpa [max_by_file_id_aux] using
      ih (if ltChars x.file_id.data a.file_id.data then a else x)

theorem max_by_file_id_eq_none_iff (l : List FileNode) :
    max_by_file_id l = none ↔ l = [] := by
  cases l with
  | nil => simp [max_by_file_id, max_by_file_id_aux]
  | cons x xs =>
    simp only [max_by_file_id, max_by_file_id_aux]
    obtain ⟨b, hb⟩ := max_by_file_id_aux_some xs x
    simp [hb]

theorem max_by_file_id_aux_spec (l : List FileNode) (acc : Option FileNode)
    (b : FileNode) (h : max_by_file_id_aux acc l = some b) :
    (acc = some b ∨ b ∈ l) ∧
      (∀ a, acc = some a → a.file_id ≤ b.file_id) ∧
      (∀ x ∈ l, x.file_id ≤ b.file_id) := by
  induction l generalizing acc with
  | nil =>
    refine ⟨Or.inl h, ?_, by simp⟩
    intro a ha
    rw [ha] at h
    cases h
    exact le_refl _
  | cons x xs ih =>
    cases acc with
    | none =>
      simp only [max_by_file_id_aux] at h
      obtain ⟨hmem, hacc, hall⟩ := ih (some x) h
      have hx_le : x.file_id ≤ b.file_id := hacc x rfl
      refine ⟨?_, by simp, ?_⟩
      · rcases hmem with hxb | hb
        · injection hxb with hxb
          exact Or.inr (by simp [← hxb])
        · exact Or.inr (List.mem_cons_of_mem _ hb)
      · intro y hy
        rcases List.mem_cons.mp hy with hyx | hyxs
        · rw [hyx]; exact hx_le
        · exact hall y hyxs
    | some a =>
      simp only [max_by_file_id_aux] at h
      cases hltb : ltChars x.file_id.data a.file_id.data with
      | true =>
        rw [hltb] at h
        rw [if_pos rfl] at h
        have hlt : x.file_id < a.file_id := (string_lt_iff_ltChars _ _).mpr hltb
        obtain ⟨hmem, hacc, hall⟩ := ih (some a) h
        have ha_le : a.file_id ≤ b.file_id := hacc a rfl
        refine ⟨?_, ?_, ?_⟩
        · rcases hmem with hab | hb
          · exact Or.inl hab
          · exact Or.inr (List.mem_cons_of_mem _ hb)
        · intro a2 ha2
          injection ha2 with ha2
          rw [← ha2]
          exact ha_le
        · intro y hy
          rcases List.mem_cons.mp hy with hyx | hyxs
          · rw [hyx]; exact le_trans (le_of_lt hlt) ha_le
          · exact hall y hyxs
      | false =>
        rw [hltb] at h
        rw [if_neg (by simp)] at h
        have hlt : ¬ x.file_id < a.file_id := by
          rw [string_lt_iff_ltChars, hltb]
          simp
        obtain ⟨hmem, hacc, hall⟩ := ih (some x) h
        have hx_le : x.file_id ≤ b.file_id := hacc x rfl
        refine ⟨?_, ?_, ?_⟩
        · rcases hmem with hxb | hb
          · injection hxb with hxb
            exact Or.inr (by simp [← hxb])
          · exact Or.inr (List.mem_cons_of_mem _ hb)
        · intro a2 ha2
          injection ha2 with ha2
          rw [← ha2]
          exact le_trans (le_of_not_lt hlt) hx_le
        · intro y hy
          rcases List.mem_cons.mp hy with hyx | hyxs
          · rw [hyx]; exact hx_le
          · exact hall y hyxs

theorem max_by_file_id_spec (l : List FileNode) (b : FileNode)
    (h : max_by_file_id l = some b) :
    b ∈ l ∧ ∀ x ∈ l, x.file_id ≤ b.file_id := by
  obtain ⟨hmem, -, hall⟩ := max_by_file_id_aux_spec l none b h
  rcases hmem with hn | hm
  · cases hn
  · exact ⟨hm, hall⟩

/-- If the header has two fields, `range_start_of` is the start expression
of `parse_range`. -/
theorem range_start_of_eq (hv : List Char) (n : Nat) (p0 p1 : List Char)
    (h : range_parts hv = some (p0, p1)) :
    range_start_of hv n =
      (if p0 = [] then (parseU64 p1).map (fun suffixLen => n - suffixLen)
       else parseU64 p0) := by
  simp [range_start_of, h]

/-- C1: the claim states that for a stored file of size `s > 0` a request
with `Range: bytes=-k` (here `k = 5`, `s = 26`) answers 206 with exactly
the last `min(k, s)` bytes.  The code instead re-parses the suffix field as
the end position, producing the pair `(21, 5)` which fails the
`start <= end` check: the response is 416 with an empty body and no
download is attempted. -/
theorem suffix_range_returns_416_not_last_bytes :
    get_file_range_branch (List.range 26) ("bytes=-5".data) =
      .response
        { status := 416
          contentRange := some ("bytes */26")
          contentLength := 0
          body := [] }
        false := by
  rfl

/-- C7: a syntactically well-formed range header whose start position is at
least the file size (including every `bytes=a-b` range on an empty file)
makes the range branch of `get_file` answer 416 with
`Content-Range: bytes */size`, `Content-Length: 0`, an empty body, and no
download of file content. -/
theorem range_start_past_size_gives_416
    (content : List Nat) (hv : List Char)
    (hwf : RangeWellFormed hv content.length)
    (s : Nat) (hs : range_start_of hv content.length = some s)
    (hge : content.length ≤ s) :
    get_file_range_branch content hv =
      .response
        { status := 416
          contentRange := some ("bytes */" ++ toString content.length)
          contentLength := 0
          body := [] }
        false := by
  obtain ⟨p0, p1, hparts, -, hend⟩ := hwf
  rw [range_start_of_eq hv content.length p0 p1 hparts] at hs
  unfold get_file_range_branch parse_range
  rw [hparts]
  by_cases hz : content.length = 0
  · simp [hz]
  · simp only [hz, if_false, hs]
    have hlt : ¬ s < content.length := by omega
    rcases hend with hnil | hsome
    · simp [hnil, hlt]
    · rcases Option.isSome_iff_exists.mp hsome with ⟨k, hk⟩
      rcases List.eq_nil_or_concat p1 with hnilp | -
      · rw [hnilp] at hk; simp [parseU64] at hk
      · by_cases hp1 : p1 = []
        · simp [hp1, hlt]
        · simp [hp1, hk, hlt]

/-- Witness for C7 at a concrete input: a three-byte file with
`Range: bytes=5-9`. -/
theorem range_start_past_size_gives_416_witness :
    get_file_range_branch [10, 11, 12] ("bytes=5-9".data) =
      .response
        { status := 416
          contentRange := some ("bytes */3")
          contentLength := 0
          body := [] }
        false :=
  range_start_past_size_gives_416 [10, 11, 12] ("bytes=5-9".data)
    ⟨['5'], ['9'], rfl, by decide, Or.inr (by decide)⟩
    5 rfl (by decide)

/-- C8: `find_file(dir_id, name)` is a pure cache query (a function of the
cache state only, with no remote call in its definition); it returns `none`
exactly when no cached row has this parent and this exact name, and when it
returns a row, that row matches and its `file_id` is greatest among all
matching rows. -/
theorem find_file_cache_query (db : List FileNode) (cid name : String) :
    (find_file db cid name = none ↔
      ∀ r ∈ db, ¬ (r.parent_id = cid ∧ r.name = name)) ∧
    (∀ f, find_file db cid name = some f →
      f ∈ db ∧ f.parent_id = cid ∧ f.name = name ∧
        ∀ r ∈ db, r.parent_id = cid → r.name = name →
          r.file_id ≤ f.file_id) := by
  constructor
  · rw [find_file, max_by_file_id_eq_none_iff, List.filter_eq_nil_iff]
    constructor
    · intro h r hr hmatch
      exact absurd (by simpa using hmatch) (by simpa using h r hr)
    · intro h r hr
      simpa using h r hr
  · intro f hf
    obtain ⟨hmem, hmax⟩ := max_by_file_id_spec _ f hf
    rw [List.mem_filter] at hmem
    obtain ⟨hmemdb, hmatch⟩ := hmem
    have hm : f.parent_id = cid ∧ f.name = name := by simpa using hmatch
    refine ⟨hmemdb, hm.1, hm.2, ?_⟩
    intro r hr hrp hrn
    exact hmax r (List.mem_filter.mpr ⟨hr, by simp [hrp, hrn]⟩)

/-- Witness for C8: two same-named siblings; `find_file` returns the one
with the lexicographically greater file id. -/
theorem find_file_cache_query_witness :
    find_file exampleCache ("p") ("n") = some exampleRow ∧
    (exampleRow ∈ exampleCache ∧ exampleRow.parent_id = "p" ∧
      exampleRow.name = "n" ∧
      ∀ r ∈ exampleCache, r.parent_id = "p" → r.name = "n" →
        r.file_id ≤ exampleRow.file_id) :=
  ⟨by decide, (find_file_cache_query exampleCache ("p") ("n")).2 exampleRow
    (by decide)⟩

theorem resolve_components_some (db : List FileNode) (comps : List String) :
    ∀ cur id, resolve_components db cur comps = some id →
      id = cur ∨ ∃ r ∈ db, r.file_id = id ∧ r.is_dir = true := by
  induction comps with
  | nil =>
    intro cur id h
    simp only [resolve_components] at h
    exact Or.inl (Option.some.inj h).symm
  | cons p ps ih =>
    intro cur id h
    simp only [resolve_components] at h
    cases hfd : find_dir_child db cur p with
    | none => rw [hfd] at h; cases h
    | some node =>
      rw [hfd] at h
      unfold find_dir_child at hfd
      obtain ⟨hmem, -⟩ := max_by_file_id_spec _ node hfd
      rw [List.mem_filter] at hmem
      obtain ⟨hmemdb, hcond⟩ := hmem
      have hdir : node.is_dir = true := by
        simp only [decide_eq_true_eq] at hcond
        exact hcond.2.2
      rcases ih node.file_id id h with hid | hex
      · exact Or.inr ⟨node, hmemdb, hid.symm, hdir⟩
      · exact Or.inr hex

/-- C10: `find_path_id` resolves only through rows flagged as directories:
a path of slashes (or the empty path) maps to the root id "0" regardless of
the cache; a component whose cached matches are all non-directories aborts
resolution with `none`; and any id the resolver returns is either the root
or the `file_id` of a cached directory row. -/
theorem find_path_id_directories_only (db : List FileNode) :
    (∀ path : List Char, (∀ c ∈ path, c = '/') →
      find_path_id db path = some ("0")) ∧
    (∀ currentId part rest,
      (∀ r ∈ db, r.parent_id = currentId → r.name = part → r.is_dir = false) →
      resolve_components db currentId (part :: rest) = none) ∧
    (∀ path id, find_path_id db path = some id →
      id = "0" ∨ ∃ r ∈ db, r.file_id = id ∧ r.is_dir = true) := by
  refine ⟨?_, ?_, ?_⟩
  · intro path hslash
    have htrim : trimEndChar '/' path = [] := by
      unfold trimEndChar
      have : path.reverse.dropWhile (fun c => c = '/') = [] := by
        rw [List.dropWhile_eq_nil_iff]
        intro x hx
        simpa using hslash x (List.mem_reverse.mp hx)
      rw [this]
      rfl
    simp [find_path_id, htrim]
  · intro currentId part rest hnodir
    have hfd : find_dir_child db currentId part = none := by
      rw [find_dir_child, max_by_file_id_eq_none_iff, List.filter_eq_nil_iff]
      intro r hr
      simp only [Bool.and_eq_true, decide_eq_true_eq, not_and]
      intro h1 h2
      rw [hnodir r hr h1 h2]
      simp
    simp [resolve_components, hfd]
  · intro path id h
    unfold find_path_id at h
    by_cases htr : trimEndChar '/' path = [] ∨ trimEndChar '/' path = ['/']
    · rw [if_pos htr] at h
      exact Or.inl (Option.some.inj h).symm
    · rw [if_neg htr] at h
      exact resolve_components_some db _ ("0") id h

/-- Witness for C10: an all-slash path resolves to "0" on the example
cache, and a component whose only matches are plain files resolves to
`none`. -/
theorem find_path_id_directories_only_witness :
    find_path_id exampleCache ("///".data) = some ("0") ∧
    resolve_components exampleCache ("p") ["n"] = none :=
  ⟨(find_path_id_directories_only exampleCache).1 ("///".data) (by decide),
   (find_path_id_directories_only exampleCache).2.1 ("p") ("n") []
     (by decide)⟩

/-- C2: the claim asserts that the reconciliation step of a successful
upload upserts by `file_id` and therefore succeeds even when a row with the
same `file_id` is already cached (an end-to-end retried upload).  The code
performs a plain insert with no conflict clause: re-reconciling the same
`file_id` (here a retry that dedups to the already-cached file "F1") makes
`handle_upload_success` fail with a primary-key conflict instead of
succeeding. -/
theorem reconcile_reinsert_same_file_id_fails :
    handle_upload_success
      [{ file_id := "F1", parent_id := "P", name := "cfg", is_dir := false,
         size := 3, pick_code := "pc" }]
      (fun _ => .response true 0) ("P")
      { file_id := "F1", filename := "cfg", is_dir := false, size := 3,
        pick_code := "pc" } = .error .dbInsertConflict := by
  rfl

/-- C3: when the first HTTP response of an authenticated call has status
401 (and the forced refresh succeeds), the pipeline refreshes exactly
once, re-issues the request exactly once, and returns the parsed body of
the second response; the event log is exactly request, refresh, request —
no backoff and no third attempt, whatever the second status and body are.
If the second attempt fails at the transport level, that error surfaces
with the same three events. -/
theorem http401_refreshes_once_retries_once
    (requests : Nat → AttemptResult) (b1 : Option JsonValue)
    (h1 : requests 1 = .resp 401 b1) :
    (∀ s2 b2, requests 2 = .resp s2 b2 →
      request_with_retry requests true =
        (parse_bytes b2, [.request 1, .refresh, .request 2])) ∧
    (requests 2 = .err →
      request_with_retry requests true =
        (.transportError, [.request 1, .refresh, .request 2])) := by
  have hgo : request_with_retry requests true =
      request_with_retry_go requests true (5 + 1) 1 1 [] := rfl
  constructor
  · intro s2 b2 h2
    rw [hgo]
    simp [request_with_retry_go, h1, h2]
  · intro h2
    rw [hgo]
    simp [request_with_retry_go, h1, h2]

/-- Witness for C3: a 401 first response followed by a 500 response whose
body parses; the pipeline returns that parsed body after one refresh and
one retry. -/
theorem http401_refreshes_once_retries_once_witness :
    request_with_retry
        (fun n => if n = 1 then .resp 401 none
          else .resp 500 (some (.str "x"))) true =
      (parse_bytes (some (.str "x")),
        [.request 1, .refresh, .request 2]) :=
  (http401_refreshes_once_retries_once
      (fun n => if n = 1 then .resp 401 none
        else .resp 500 (some (.str "x"))) none rfl).1
    500 (some (.str "x")) rfl

theorem backoff_secs_eq_pow (n : Nat) :
    backoff_secs n = min (2 ^ (n - 1)) 16 := by
  simp [backoff_secs, Nat.shiftLeft_eq]

theorem backoff_schedule_succ (j : Nat) :
    backoff_schedule j ++ [backoff_secs (j + 1)] = backoff_schedule (j + 1) := by
  unfold backoff_schedule
  rw [List.range_succ, List.map_append]
  rfl

/-- The refresh loop only ever consults attempts 1 through 6. -/
theorem refresh_token_loop_congr (f g : Nat → RefreshAttempt)
    (hfg : ∀ n, 1 ≤ n → n ≤ MAX_RATE_LIMIT_RETRIES → f n = g n) :
    ∀ fuel attempt sleeps, 1 ≤ attempt →
      attempt + fuel = MAX_RATE_LIMIT_RETRIES + 1 →
      refresh_token_loop f fuel attempt sleeps =
        refresh_token_loop g fuel attempt sleeps := by
  intro fuel
  induction fuel with
  | zero => intro attempt sleeps h1 h2; rfl
  | succ fuel ih =>
    intro attempt sleeps h1 h2
    have h2n : attempt + (fuel + 1) = 7 := by
      simpa [MAX_RATE_LIMIT_RETRIES] using h2
    have hfa : f attempt = g attempt := by
      refine hfg attempt h1 ?_
      simp only [MAX_RATE_LIMIT_RETRIES]
      omega
    have harith : attempt + 1 + fuel = MAX_RATE_LIMIT_RETRIES + 1 := by
      simp only [MAX_RATE_LIMIT_RETRIES]
      omega
    cases hga : g attempt with
    | transportErr =>
      have hfa2 : f attempt = .transportErr := hfa.trans hga
      simp only [refresh_token_loop, hfa2, hga]
      by_cases hlt : attempt < MAX_RATE_LIMIT_RETRIES
      · rw [if_pos hlt, if_pos hlt]
        exact ih (attempt + 1) _ (by omega) harith
      · rw [if_neg hlt, if_neg hlt]
    | parseErr =>
      have hfa2 : f attempt = .parseErr := hfa.trans hga
      simp only [refresh_token_loop, hfa2, hga]
      by_cases hlt : attempt < MAX_RATE_LIMIT_RETRIES
      · rw [if_pos hlt, if_pos hlt]
        exact ih (attempt + 1) _ (by omega) harith
      · rw [if_neg hlt, if_neg hlt]
    | body st code msg =>
      have hfa2 : f attempt = .body st code msg := hfa.trans hga
      simp only [refresh_token_loop, hfa2, hga]
      by_cases hok : st.getD false = true ∧ code.getD (-1) = 0
      · rw [if_pos hok, if_pos hok]
      · rw [if_neg hok, if_neg hok]
        by_cases hrl : is_refresh_rate_limited (code.getD (-1)) = true ∧
            attempt < MAX_RATE_LIMIT_RETRIES
        · rw [if_pos hrl, if_pos hrl]
          exact ih (attempt + 1) _ (by omega) harith
        · rw [if_neg hrl, if_neg hrl]

/-- Every sleep the refresh loop takes follows the exponential schedule:
starting from attempt `a` with the schedule of the first `a - 1` failures
recorded, the loop ends with the schedule of the first `k` failures for
some `k ≤ 5`. -/
theorem refresh_token_loop_sleeps (f : Nat → RefreshAttempt) :
    ∀ fuel attempt, 1 ≤ attempt → attempt + fuel = 7 → 1 ≤ fuel →
      ∃ k, (attempt - 1) ≤ k ∧ k ≤ 5 ∧
        (refresh_token_loop f fuel attempt
            (backoff_schedule (attempt - 1))).2 =
          backoff_schedule k := by
  intro fuel
  induction fuel with
  | zero => intro attempt h1 h2 h3; exact absurd h3 (by omega)
  | succ fuel ih =>
    intro attempt h1 h2 hf
    have hstep : backoff_schedule (attempt - 1) ++ [backoff_secs attempt] =
        backoff_schedule attempt := by
      have hsucc := backoff_schedule_succ (attempt - 1)
      rw [show attempt - 1 + 1 = attempt from by omega] at hsucc
      exact hsucc
    have hrec : attempt < 6 →
        ∃ k, (attempt - 1) ≤ k ∧ k ≤ 5 ∧
          (refresh_token_loop f fuel (attempt + 1)
              (backoff_schedule (attempt - 1) ++
                [backoff_secs attempt])).2 =
            backoff_schedule k := by
      intro hlt
      rw [hstep]
      have hih := ih (attempt + 1) (by omega) (by omega) (by omega)
      rw [show attempt + 1 - 1 = attempt from by omega] at hih
      obtain ⟨k, hk1, hk2, hk3⟩ := hih
      exact ⟨k, by omega, hk2, hk3⟩
    have hmax : MAX_RATE_LIMIT_RETRIES = 6 := rfl
    cases hfa : f attempt with
    | transportErr =>
      simp only [refresh_token_loop, hfa, hmax]
      by_cases hlt : attempt < 6
      · rw [if_pos hlt]
        exact hrec hlt
      · rw [if_neg hlt]
        exact ⟨attempt - 1, le_refl _, by omega, rfl⟩
    | parseErr =>
      simp only [refresh_token_loop, hfa, hmax]
      by_cases hlt : attempt < 6
      · rw [if_pos hlt]
        exact hrec hlt
      · rw [if_neg hlt]
        exact ⟨attempt - 1, le_refl _, by omega, rfl⟩
    | body st code msg =>
      simp only [refresh_token_loop, hfa, hmax]
      by_cases hok : st.getD false = true ∧ code.getD (-1) = 0
      · rw [if_pos hok]
        exact ⟨attempt - 1, le_refl _, by omega, rfl⟩
      · rw [if_neg hok]
        by_cases hrl : is_refresh_rate_limited (code.getD (-1)) = true ∧
            attempt < 6
        · rw [if_pos hrl]
          exact hrec hrl.2
        · rw [if_neg hrl]
          exact ⟨attempt - 1, le_refl _, by omega, rfl⟩

/-- C5: the refresh retry policy.  (1) the backoff sleep after failed
attempt `n` is `min(2^(n-1), 16)` seconds; (2) the loop makes at most 6
attempts — its outcome depends only on attempts 1 through 6; (3) the
sleeps actually taken are always a prefix of the schedule 1, 2, 4, 8, 16
(at most five sleeps separate the at-most-six attempts); (4) an
application-level response that is neither a success (`state` true and
code 0) nor the rate-limit code 40140117 terminates the loop immediately
at that attempt, with no sleep and no further attempts, as an auth error
carrying that code and message.  Transport errors, parse errors and code
40140117 are the only retried outcomes. -/
theorem refresh_retry_policy :
    (∀ n, backoff_secs n = min (2 ^ (n - 1)) 16) ∧
    (∀ f g, (∀ n, 1 ≤ n → n ≤ MAX_RATE_LIMIT_RETRIES → f n = g n) →
      refresh_token f = refresh_token g) ∧
    (∀ f, ∃ k, k ≤ 5 ∧ (refresh_token f).2 = backoff_schedule k) ∧
    (∀ f st code msg fuel attempt sleeps,
      f attempt = .body st code msg →
      ¬ (st.getD false = true ∧ code.getD (-1) = 0) →
      ¬ code.getD (-1) = 40140117 →
      refresh_token_loop f (fuel + 1) attempt sleeps =
        (.authError (code.getD (-1)) (msg.getD ("")), sleeps)) := by
  refine ⟨backoff_secs_eq_pow, ?_, ?_, ?_⟩
  · intro f g hfg
    exact refresh_token_loop_congr f g hfg MAX_RATE_LIMIT_RETRIES 1 []
      (le_refl 1) rfl
  · intro f
    have hsl := refresh_token_loop_sleeps f MAX_RATE_LIMIT_RETRIES 1
      (le_refl 1) rfl (by simp [MAX_RATE_LIMIT_RETRIES])
    simp only [show (1 : Nat) - 1 = 0 from rfl] at hsl
    obtain ⟨k, -, hk2, hk3⟩ := hsl
    refine ⟨k, hk2, ?_⟩
    simpa [refresh_token, backoff_schedule] using hk3
  · intro f st code msg fuel attempt sleeps hfa hne hcode
    simp only [refresh_token_loop, hfa]
    rw [if_neg hne,
      if_neg (fun hc =>
        hcode (by simpa [is_refresh_rate_limited] using hc.1))]

/-- Witness for C5: a terminal application error (code 99) resolves
immediately as an auth error with no sleeps. -/
theorem refresh_retry_policy_witness :
    refresh_token_loop
        (fun _ => .body (some false) (some 99) (some ("boom")))
        (5 + 1) 1 [] =
      (.authError 99 ("boom"), []) :=
  refresh_retry_policy.2.2.2
    (fun _ => .body (some false) (some 99) (some ("boom")))
    (some false) (some 99) (some ("boom")) 5 1 [] rfl (by simp)
    (by decide)

theorem oss_put_success_result_some_iff (body : OssPutBody) :
    (∃ d, oss_put_success_result body = some d) ↔ GoodCallback body := by
  cases body with
  | empty => simp [oss_put_success_result, GoodCallback]
  | unparseable => simp [oss_put_success_result, GoodCallback]
  | json v =>
    constructor
    · rintro ⟨d, hd⟩
      simp only [oss_put_success_result] at hd
      split at hd
      next => cases hd
      next cb hp =>
        split at hd
        next hc =>
          split at hd
          next d2 hdata =>
            split at hd
            next hids =>
              injection hd with hd
              subst hd
              have hst : cb.state = some true := by
                obtain ⟨hc1, -⟩ := hc
                cases hs : cb.state with
                | none => rw [hs] at hc1; simp at hc1
                | some b =>
                  cases b with
                  | false => rw [hs] at hc1; simp at hc1
                  | true => rfl
              exact ⟨v, cb, d2, rfl, hp, hst, hc.2, hdata, hids.1, hids.2⟩
            next => cases hd
          next hdata => cases hd
        next => cases hd
    · rintro ⟨v2, cb2, d, hv, hparse, hst, hcode, hdata, hfid, hpc⟩
      injection hv with hv
      subst hv
      refine ⟨d, ?_⟩
      simp [oss_put_success_result, hparse, hst, hdata, hcode, hfid, hpc]

/-- C4: when the OSS PUT answers an HTTP success status, the upload
returns `Ok` only if the response body parses as a callback result with
state true, code 0, and non-empty `file_id` and `pick_code`; in every
other case (empty body, unparseable body, missing data, empty ids, falsy
state, non-zero code) the upload fails with the fixed
`Internal("OSS upload completed but server failed to return file metadata
via callback")` error. -/
theorem oss_callback_failure_is_internal (status : Nat) (body : OssPutBody)
    (db : List FileNode) (remote : String → RemoteDeleteResult)
    (parentId filename : String)
    (h2a : 200 ≤ status) (h2b : status ≤ 299) :
    (¬ GoodCallback body →
      upload_file_after_put db remote parentId filename
          (oss_put_response status body) =
        .error (.internal oss_upload_err_msg)) ∧
    (∀ db2,
      upload_file_after_put db remote parentId filename
          (oss_put_response status body) = .ok db2 →
      GoodCallback body) := by
  have hresp : oss_put_response status body =
      .ok (oss_put_success_result body) := by
    unfold oss_put_response
    rw [if_pos ⟨h2a, h2b⟩]
  rw [hresp]
  constructor
  · intro hng
    cases hres : oss_put_success_result body with
    | none => simp [upload_file_after_put, hres]
    | some d =>
      exact absurd ((oss_put_success_result_some_iff body).mp ⟨d, hres⟩) hng
  · intro db2 hok
    cases hres : oss_put_success_result body with
    | none =>
      rw [hres] at hok
      simp [upload_file_after_put] at hok
    | some d =>
      exact (oss_put_success_result_some_iff body).mp ⟨d, hres⟩

/-- Witness for C4: an empty PUT response body under HTTP 200 yields the
fixed `Internal` error. -/
theorem oss_callback_failure_is_internal_witness :
    upload_file_after_put [] (fun _ => .response true 0) ("P") ("blob")
        (oss_put_response 200 .empty) =
      .error (.internal oss_upload_err_msg) :=
  (oss_callback_failure_is_internal 200 .empty [] (fun _ => .response true 0)
      ("P") ("blob") (by decide) (by decide)).1
    (by rintro ⟨v, cb, d, h, -⟩; simp at h)

/-- C9: the write path (`get_data_file_dir_id`, used by POST) and the
read/delete path (`find_data_file_dir_id`, used by HEAD/GET/DELETE) build
the same remote directory path `repo_path/data/p`, where `p` is the first
two characters of the blob name, or the whole name when it is shorter than
two characters — the shard layout required by invariant D3. -/
theorem data_shard_paths_agree (repoPath : String) (filename : List Char) :
    get_data_file_dir_path repoPath filename =
      find_data_file_dir_path repoPath filename ∧
    get_data_file_dir_path repoPath filename =
      repoPath ++ "/data/" ++
        (if filename.length < 2 then String.mk filename
         else String.mk (filename.take 2)) := by
  constructor
  · rfl
  · unfold get_data_file_dir_path data_subdir_first2
    by_cases h : filename.length < 2
    · rw [if_pos h, min_eq_right (Nat.le_of_lt h), List.take_length]
    · rw [if_neg h, min_eq_left (Nat.not_lt.mp h)]

/-- C6: for every input, the string handed to HMAC-SHA1 by the OSS signed
PUT is exactly `PUT`, newline, an empty line, the content type
`application/octet-stream`, newline, the date, newline, the three
`x-oss-*` headers in lexicographic name order, each as
`lowercase-name:trimmed-value` plus newline (values: base64(callback),
base64(callback_var), the raw security token), followed by
`/bucket/object` with leading slashes stripped from the object; and the
`Authorization` header is `OSS akId:base64(HMAC)` over that exact
string. -/
theorem oss_string_to_sign_exact (b64 : String → String)
    (hmacB64 : String → String → String)
    (akId akSecret bucket object callback callbackVar securityToken date :
      String) :
    (oss_put_signature b64 hmacB64 akId akSecret bucket object callback
        callbackVar securityToken date).string_to_sign =
      "PUT\n\napplication/octet-stream\n" ++ date ++ "\n" ++
        ("x-oss-callback:" ++ String.mk (trimChars (b64 callback).data) ++
          "\n") ++
        ("x-oss-callback-var:" ++
          String.mk (trimChars (b64 callbackVar).data) ++ "\n") ++
        ("x-oss-security-token:" ++
          String.mk (trimChars securityToken.data) ++ "\n") ++
        ("/" ++ bucket ++ "/" ++
          String.mk (trimStartChar '/' object.data)) ∧
    (oss_put_signature b64 hmacB64 akId akSecret bucket object callback
        callbackVar securityToken date).authorization =
      "OSS " ++ akId ++ ":" ++
        hmacB64 akSecret
          (oss_put_signature b64 hmacB64 akId akSecret bucket object
            callback callbackVar securityToken date).string_to_sign := by
  constructor
  · show oss_string_to_sign bucket object (b64 callback) (b64 callbackVar)
      securityToken date = _
    unfold oss_string_to_sign oss_canonicalized_headers oss_header_pairs
      sortHeadersByName oss_canonicalized_resource oss_content_type
    simp only [List.foldr, insertHeaderSorted, List.map, String.join]
    norm_num [insertHeaderSorted, ltChars, String.append_assoc]
    rw [String.ext_iff]
    simp [lowerChars, asciiLowerChar]
  · rfl

end Restic115
